import Mathlib

/-!
Verification development for the continuous-space worm game core
(`src/utils/Vector2D.ts`, `src/utils/MathUtils.ts`, `src/game/Snake.ts`,
`src/game/CollisionDetector.ts`, `src/game/Food.ts`, `src/game/Game.ts`).
JavaScript numbers are modelled as real numbers; every definition mirrors
the corresponding source function.
-/

noncomputable section

open Classical

/-- 2D vector value type, from `Vector2D.ts` (`x`, `y` : number). -/
structure Vector2D where
  x : ℝ
  y : ℝ

namespace Vector2D

/-- `Vector2D.zero()`. -/
def zero : Vector2D := ⟨0, 0⟩

/-- `Vector2D.right()`. -/
def right : Vector2D := ⟨1, 0⟩

/-- `add(other)`. -/
def add (v w : Vector2D) : Vector2D := ⟨v.x + w.x, v.y + w.y⟩

/-- `subtract(other)`. -/
def subtract (v w : Vector2D) : Vector2D := ⟨v.x - w.x, v.y - w.y⟩

/-- `multiply(scalar)`. -/
def multiply (v : Vector2D) (s : ℝ) : Vector2D := ⟨v.x * s, v.y * s⟩

/-- `divide(scalar)`: throws on a zero divisor, modelled as `Option`. -/
def divide (v : Vector2D) (s : ℝ) : Option Vector2D :=
  if s = 0 then none else some ⟨v.x / s, v.y / s⟩

/-- `magnitude()` = `Math.sqrt(x*x + y*y)`. -/
def magnitude (v : Vector2D) : ℝ := Real.sqrt (v.x * v.x + v.y * v.y)

/-- `magnitudeSquared()`. -/
def magnitudeSquared (v : Vector2D) : ℝ := v.x * v.x + v.y * v.y

/-- `normalize()`: returns the zero vector when the magnitude is 0,
otherwise divides by the magnitude (the guard makes `divide`'s
zero-divisor branch unreachable). -/
def normalize (v : Vector2D) : Vector2D :=
  if magnitude v = 0 then ⟨0, 0⟩ else ⟨v.x / magnitude v, v.y / magnitude v⟩

/-- `distance(other)`. -/
def distance (v w : Vector2D) : ℝ := magnitude (subtract v w)

/-- `dot(other)`. -/
def dot (v w : Vector2D) : ℝ := v.x * w.x + v.y * w.y

/-- `angle()` = `Math.atan2(y, x)`, modelled by the complex argument. -/
def angle (v : Vector2D) : ℝ := Complex.arg ⟨v.x, v.y⟩

/-- `Vector2D.fromAngle(angle)` with the default magnitude 1. -/
def fromAngle (a : ℝ) : Vector2D := ⟨Real.cos a, Real.sin a⟩

end Vector2D

namespace MathUtils

/-- `MathUtils.clamp(value, min, max)` = `Math.min(Math.max(value, min), max)`. -/
def clamp (value lo hi : ℝ) : ℝ := min (max value lo) hi

/-- First loop of `angleDistance`: `while (diff > Math.PI) diff -= 2π`. -/
def reduceDown (d : ℝ) : ℝ :=
  if Real.pi < d then reduceDown (d - 2 * Real.pi) else d
termination_by (⌈(d - Real.pi) / (2 * Real.pi)⌉).toNat
decreasing_by
  have h1 : ⌈(d - 2 * Real.pi - Real.pi) / (2 * Real.pi)⌉
      = ⌈(d - Real.pi) / (2 * Real.pi)⌉ - 1 := by
    rw [show (d - 2 * Real.pi - Real.pi) / (2 * Real.pi)
        = (d - Real.pi) / (2 * Real.pi) - 1 by field_simp; ring]
    exact Int.ceil_sub_one _
  have h2 : 0 < ⌈(d - Real.pi) / (2 * Real.pi)⌉ := by
    rw [Int.ceil_pos]
    have : (0:ℝ) < d - Real.pi := by linarith
    positivity
  rw [h1]
  omega

/-- Second loop of `angleDistance`: `while (diff < -Math.PI) diff += 2π`. -/
def reduceUp (d : ℝ) : ℝ :=
  if d < -Real.pi then reduceUp (d + 2 * Real.pi) else d
termination_by (⌈(-Real.pi - d) / (2 * Real.pi)⌉).toNat
decreasing_by
  have h1 : ⌈(-Real.pi - (d + 2 * Real.pi)) / (2 * Real.pi)⌉
      = ⌈(-Real.pi - d) / (2 * Real.pi)⌉ - 1 := by
    rw [show (-Real.pi - (d + 2 * Real.pi)) / (2 * Real.pi)
        = (-Real.pi - d) / (2 * Real.pi) - 1 by field_simp; ring]
    exact Int.ceil_sub_one _
  have h2 : 0 < ⌈(-Real.pi - d) / (2 * Real.pi)⌉ := by
    rw [Int.ceil_pos]
    have : (0:ℝ) < -Real.pi - d := by linarith
    positivity
  rw [h1]
  omega

/-- `MathUtils.angleDistance(angle1, angle2)`: the two normalization loops
applied to `angle2 - angle1`. -/
def angleDistance (a1 a2 : ℝ) : ℝ := reduceUp (reduceDown (a2 - a1))

end MathUtils

/-- `GAME_CONFIG.SNAKE.GROWTH_RATE` from `Constants.ts`. -/
def GROWTH_RATE : ℕ := 2

/-- `GAME_CONFIG.SNAKE.INITIAL_LENGTH` from `Constants.ts`. -/
def INITIAL_LENGTH : ℕ := 5

/-- `PHYSICS_CONSTANTS.COLLISION_TOLERANCE` from `Constants.ts`. -/
def COLLISION_TOLERANCE : ℝ := 0.1

/-- The `Snake` class state (`Snake.ts`): the private `turningSpeed` field is
initialized to 5 and never reassigned, so it is modelled as the constant
`turningSpeed` below. -/
structure Snake where
  segments : List Vector2D
  direction : Vector2D
  targetDirection : Vector2D
  speed : ℝ
  radius : ℝ
  isAlive : Bool
  segmentSpacing : ℝ

namespace Snake

/-- `this.turningSpeed = 5`. -/
def turningSpeed : ℝ := 5

/-- `getHead()`: `segments[0]?.clone() || Vector2D.zero()`. -/
def getHead (s : Snake) : Vector2D := s.segments.getD 0 Vector2D.zero

/-- `getLength()`. -/
def getLength (s : Snake) : ℕ := s.segments.length

/-- `getScore()` = `max(0, segments.length - INITIAL_LENGTH) * 10`. -/
def getScore (s : Snake) : ℕ := (s.segments.length - INITIAL_LENGTH) * 10

/-- `updateDirection(deltaTime)`: rotate `direction` toward `targetDirection`
by at most `turningSpeed * deltaTime / 1000` radians. -/
def updateDirection (s : Snake) (deltaTime : ℝ) : Snake :=
  let angleDiff := MathUtils.angleDistance s.direction.angle s.targetDirection.angle
  let maxTurnAngle := turningSpeed * deltaTime / 1000
  let turnAngle := MathUtils.clamp angleDiff (-maxTurnAngle) maxTurnAngle
  { s with direction := Vector2D.fromAngle (s.direction.angle + turnAngle) }

/-- One iteration of the follow-the-leader loop in `moveSegments`: the
follower moves only when its distance to the (already updated) leader
exceeds `segmentSpacing`, and then lands exactly `segmentSpacing` away. -/
def followOne (leader follower : Vector2D) (spacing : ℝ) : Vector2D :=
  let toLeader := leader.subtract follower
  let dist := toLeader.magnitude
  if spacing < dist then
    follower.add ((toLeader.normalize).multiply (dist - spacing))
  else follower

/-- The follow-the-leader loop of `moveSegments` over the trailing segments
(each processed segment becomes the next one's leader). -/
def followSegs (leader : Vector2D) (rest : List Vector2D) (spacing : ℝ) :
    List Vector2D :=
  match rest with
  | [] => []
  | f :: t =>
    let f' := followOne leader f spacing
    f' :: followSegs f' t spacing

/-- `moveSegments(deltaTime)`: advance the head by
`direction * speed * deltaTime / 1000`, then run the follow loop. -/
def moveSegments (s : Snake) (deltaTime : ℝ) : Snake :=
  let moveDistance := s.speed * deltaTime / 1000
  let movement := s.direction.multiply moveDistance
  match s.segments with
  | [] => { s with segments := [] }
  | h :: t =>
    let h' := h.add movement
    { s with segments := h' :: followSegs h' t s.segmentSpacing }

/-- `checkSelfCollision()`: no-op below 4 segments; otherwise tests the head
against segments from index 3 on (`distance < radius * 2`), and on a hit
sets `isAlive = false` and reports `true`. -/
def checkSelfCollision (s : Snake) : Snake × Bool :=
  if s.segments.length < 4 then (s, false)
  else if ∃ v ∈ s.segments.drop 3, (getHead s).distance v < s.radius * 2 then
    ({ s with isAlive := false }, true)
  else (s, false)

/-- `update(deltaTime)`: early-out when dead, then direction smoothing,
segment movement and the self-collision check. -/
def update (s : Snake) (deltaTime : ℝ) : Snake :=
  if s.isAlive = false then s
  else (checkSelfCollision (moveSegments (updateDirection s deltaTime) deltaTime)).1

/-- `turn(newDirection)`: accepts (into `targetDirection` only) exactly when
the dot product with the exact reverse of the heading is below 0.8. -/
def turn (s : Snake) (newDirection : Vector2D) : Snake :=
  let oppositeDirection := s.direction.multiply (-1)
  let d := (newDirection.normalize).dot (oppositeDirection.normalize)
  if d < 0.8 then { s with targetDirection := newDirection.normalize } else s

/-- One new tail position inside the `grow()` loop: iteration `i` reads the
second-to-last element of the *current* (already extended) segment list. -/
def growPos (segs : List Vector2D) (tail direction : Vector2D) (spacing : ℝ)
    (i : ℕ) : Vector2D :=
  if 1 < segs.length then
    let secondToLast := segs.getD (segs.length - 2) Vector2D.zero
    let tailDirection := (tail.subtract secondToLast).normalize
    tail.subtract (tailDirection.multiply (spacing * (i + 1)))
  else tail.add ((direction.multiply (-1)).multiply (spacing * (i + 1)))

/-- The `grow()` loop: `n` remaining iterations, `i` the iteration index. -/
def growLoop (tail direction : Vector2D) (spacing : ℝ) :
    ℕ → ℕ → List Vector2D → List Vector2D
  | _, 0, segs => segs
  | i, Nat.succ n, segs =>
    growLoop tail direction spacing (i + 1) n
      (segs ++ [growPos segs tail direction spacing i])

/-- `grow()`: appends `GROWTH_RATE` segments at the tail (no-op when the
segment list is empty). -/
def grow (s : Snake) : Snake :=
  match s.segments.getLast? with
  | none => s
  | some tail =>
    { s with segments := growLoop tail s.direction s.segmentSpacing 0 GROWTH_RATE s.segments }

/-- `increaseSpeed(amount)`. -/
def increaseSpeed (s : Snake) (amount : ℝ) : Snake := { s with speed := s.speed + amount }

end Snake

/-- A concrete three-segment worm heading right, used by witnesses. -/
def wormA : Snake :=
  { segments := [⟨100, 100⟩, ⟨84, 100⟩, ⟨68, 100⟩]
    direction := ⟨1, 0⟩
    targetDirection := ⟨1, 0⟩
    speed := 100
    radius := 8
    isAlive := true
    segmentSpacing := 16 }

/-- A one-segment worm heading right, for the `turn` threshold analysis. -/
def wormB : Snake :=
  { segments := [⟨0, 0⟩]
    direction := ⟨1, 0⟩
    targetDirection := ⟨1, 0⟩
    speed := 100
    radius := 8
    isAlive := true
    segmentSpacing := 16 }

/-- `wormB` with a target heading 143° away from the current heading. -/
def wormC : Snake := { wormB with targetDirection := ⟨-4/5, 3/5⟩ }

/-- Transient result value returned by every `CollisionDetector` query. -/
structure CollisionResult where
  occurred : Bool
  point : Option Vector2D
  normal : Option Vector2D
  dist : Option ℝ

/-- The `{ occurred: false }` result. -/
def noCollision : CollisionResult :=
  ⟨false, Option.none, Option.none, Option.none⟩

namespace CollisionDetector

/-- `circleToCircle(c1, r1, c2, r2)` for a detector with tolerance `tol`. -/
def circleToCircle (tol : ℝ) (center1 : Vector2D) (radius1 : ℝ)
    (center2 : Vector2D) (radius2 : ℝ) : CollisionResult :=
  if center1.distance center2 ≤ radius1 + radius2 + tol then
    { occurred := true
      point := some (center1.add (((center2.subtract center1).normalize).multiply radius1))
      normal := some ((center2.subtract center1).normalize)
      dist := some (center1.distance center2) }
  else noCollision

/-- The loop of `snakeSelfCollision` over the segments from index 3 on,
returning the first hit. -/
def scanSegments (tol : ℝ) (head : Vector2D) (radius : ℝ) :
    List Vector2D → CollisionResult
  | [] => noCollision
  | v :: rest =>
    let c := circleToCircle tol head radius v radius
    if c.occurred then c else scanSegments tol head radius rest

/-- `snakeSelfCollision(snake)`: fewer than 4 segments never collide; else
circle-test the head against every segment from index 3 on. -/
def snakeSelfCollision (tol : ℝ) (s : Snake) : CollisionResult :=
  if s.segments.length < 4 then noCollision
  else scanSegments tol (Snake.getHead s) s.radius (s.segments.drop 3)

end CollisionDetector

/-- A rectangle `{x, y, width, height}` from `GameTypes.ts`. -/
structure Rectangle where
  x : ℝ
  y : ℝ
  width : ℝ
  height : ℝ

namespace SpatialGrid

/-- `getGridKey(position)`: `floor((pos - origin) / cellSize)` per axis (the
JS string key `"gx,gy"` is modelled as the integer pair it encodes). -/
def getGridKey (bounds : Rectangle) (cellSize : ℝ) (position : Vector2D) : ℤ × ℤ :=
  (⌊(position.x - bounds.x) / cellSize⌋, ⌊(position.y - bounds.y) / cellSize⌋)

/-- The bucket map `Map<string, Vector2D[]>`; a missing key is the empty
bucket. -/
def Grid : Type := ℤ × ℤ → List Vector2D

/-- A fresh grid: every bucket empty. -/
def emptyGrid : Grid := fun _ => []

/-- `insert(position)`: push onto the bucket of the position's key. -/
def insert (bounds : Rectangle) (cellSize : ℝ) (g : Grid) (position : Vector2D) :
    Grid :=
  fun k => if k = getGridKey bounds cellSize position then g k ++ [position] else g k

/-- Repeated `insert` over a list of points. -/
def insertAll (bounds : Rectangle) (cellSize : ℝ) (g : Grid)
    (ps : List Vector2D) : Grid :=
  ps.foldl (insert bounds cellSize) g

/-- The integer interval `[a, b]` as a list. -/
def intRange (a b : ℤ) : List ℤ := (List.range (b - a + 1).toNat).map (fun (i : ℕ) => a + (i : ℤ))

/-- `getNearbyPoints(position, radius)`: scan the
`ceil(radius / cellSize)`-ring of buckets around the query cell. -/
def getNearbyPoints (bounds : Rectangle) (cellSize : ℝ) (g : Grid)
    (position : Vector2D) (radius : ℝ) : List Vector2D :=
  let cellRadius : ℤ := ⌈radius / cellSize⌉
  let c := getGridKey bounds cellSize position
  (intRange (-cellRadius) cellRadius).flatMap fun dx =>
    (intRange (-cellRadius) cellRadius).flatMap fun dy =>
      g (c.1 + dx, c.2 + dy)

end SpatialGrid

/-- `FoodType` enum from `GameTypes.ts`. -/
inductive FoodType
  | normal
  | bonus
  | speed
deriving DecidableEq

/-- `FOOD_VALUES` from `Constants.ts`. -/
def FOOD_VALUES : FoodType → ℝ
  | .normal => 10
  | .bonus => 50
  | .speed => 25

/-- `GAME_CONFIG.FOOD.RADIUS`. -/
def FOOD_RADIUS : ℝ := 6

/-- The `Food` class state; `maxAnimationTime` is the constant 2000. -/
structure Food where
  position : Vector2D
  radius : ℝ
  value : ℝ
  type : FoodType
  isActive : Bool
  animationTime : ℝ
  pulseScale : ℝ
  rotationAngle : ℝ

namespace Food

/-- `this.maxAnimationTime = 2000`. -/
def maxAnimationTime : ℝ := 2000

/-- `new Food(type)` including `setPropertiesForType()`. -/
def create (t : FoodType) : Food :=
  { position := Vector2D.zero
    radius := match t with
      | .normal => FOOD_RADIUS
      | .bonus => FOOD_RADIUS * 1.3
      | .speed => FOOD_RADIUS * 0.8
    value := FOOD_VALUES t
    type := t
    isActive := false
    animationTime := 0
    pulseScale := 1
    rotationAngle := 0 }

/-- `getEffectiveRadius()` = `radius * pulseScale`. -/
def getEffectiveRadius (f : Food) : ℝ := f.radius * f.pulseScale

/-- `isPositionTooClose(existingPositions)` for the candidate position
`pos` the loop just assigned: some existing position closer than
`radius * 4`. -/
def isPositionTooClose (f : Food) (pos : Vector2D) (existing : List Vector2D) :
    Prop :=
  ∃ p ∈ existing, pos.distance p < f.radius * 4

/-- The do-while retry loop of `spawn`: `candidates` enumerates the values
`generateRandomPosition(bounds)` would return, `i` is the 0-based index of
the current sample (so `attempts = i + 1` after sampling). Returns the
accepted position and the number of attempts made. -/
def spawnLoop (f : Food) (existing : List Vector2D) (candidates : ℕ → Vector2D)
    (i : ℕ) : Vector2D × ℕ :=
  if h : i + 1 < 50 ∧ isPositionTooClose f (candidates i) existing then
    spawnLoop f existing candidates (i + 1)
  else (candidates i, i + 1)
termination_by 50 - i
decreasing_by
  omega

/-- `spawn(bounds, existingPositions)`: run the retry loop (at most 50
attempts, the last sample accepted even when too close), then set
`isActive = true` and the random animation phases (oracle seeds). Returns
the updated food and the attempt count. -/
def spawn (f : Food) (existing : List Vector2D) (candidates : ℕ → Vector2D)
    (animSeed rotSeed : ℝ) : Food × ℕ :=
  let r := spawnLoop f existing candidates 0
  ({ f with position := r.1
            isActive := true
            animationTime := animSeed
            rotationAngle := rotSeed }, r.2)

/-- `update(deltaTime)` (Food): advance the cyclic animation clock, the
sinusoidal pulse and the type-dependent rotation. -/
def update (f : Food) (dt : ℝ) : Food :=
  if f.isActive = false then f
  else
    let at1 := f.animationTime + dt
    let at2 := if maxAnimationTime < at1 then 0 else at1
    let pulse := 1 + Real.sin (at2 / maxAnimationTime * Real.pi * 4) * 0.2
    let rot :=
      if f.type = FoodType.bonus then f.rotationAngle + dt / 1000 * Real.pi
      else if f.type = FoodType.speed then
        f.rotationAngle + dt / 1000 * (Real.pi * 2)
      else f.rotationAngle
    { f with animationTime := at2, pulseScale := pulse, rotationAngle := rot }

/-- `checkCollision(point, collisionRadius)`: inactive food never collides;
else circle test against the effective radius. -/
def checkCollision (f : Food) (point : Vector2D) (collisionRadius : ℝ) : Prop :=
  f.isActive = true ∧
    f.position.distance point ≤ getEffectiveRadius f + collisionRadius

/-- `consume()`. -/
def consume (f : Food) : Food := { f with isActive := false }

end Food

/-- The `FoodManager` state. -/
structure FoodManager where
  foods : List Food
  lastSpawnTime : ℝ
  spawnInterval : ℝ
  maxFoodCount : ℕ
  bounds : Rectangle

namespace FoodManager

/-- `spawnNewFood(snakeSegments)`: the `Food.createRandom()` result and the
spawn randomness are oracle parameters. -/
def spawnNewFood (fm : FoodManager) (snakeSegments : List Vector2D)
    (newFood : Food) (candidates : ℕ → Vector2D) (animSeed rotSeed : ℝ) :
    FoodManager :=
  let existing := snakeSegments ++ fm.foods.map (fun f => f.position)
  let spawned := (Food.spawn newFood existing candidates animSeed rotSeed).1
  { fm with foods := fm.foods ++ [spawned] }

/-- `update(deltaTime, snakeSegments)`: update foods, drop inactive ones,
advance the spawn timer, and spawn one food when the interval elapsed and
the count is below `maxFoodCount` (`shouldSpawnFood()`). -/
def update (fm : FoodManager) (dt : ℝ) (snakeSegments : List Vector2D)
    (newFood : Food) (candidates : ℕ → Vector2D) (animSeed rotSeed : ℝ) :
    FoodManager :=
  let filtered := (fm.foods.map (fun f => Food.update f dt)).filter
    (fun f => f.isActive)
  let fm1 := { fm with foods := filtered, lastSpawnTime := fm.lastSpawnTime + dt }
  if fm1.spawnInterval ≤ fm1.lastSpawnTime ∧ fm1.foods.length < fm1.maxFoodCount then
    { spawnNewFood fm1 snakeSegments newFood candidates animSeed rotSeed with
        lastSpawnTime := 0 }
  else fm1

/-- `forceSpawn(snakeSegments)`: bypasses the timer but not the cap. -/
def forceSpawn (fm : FoodManager) (snakeSegments : List Vector2D)
    (newFood : Food) (candidates : ℕ → Vector2D) (animSeed rotSeed : ℝ) :
    FoodManager :=
  if fm.foods.length < fm.maxFoodCount then
    spawnNewFood fm snakeSegments newFood candidates animSeed rotSeed
  else fm

/-- The `for (const food of this.foods)` loop of `checkCollisions`: consume
and return the first colliding food, leaving the others untouched. -/
def checkCollisionsList (foods : List Food) (point : Vector2D) (radius : ℝ) :
    Option Food × List Food :=
  match foods with
  | [] => (Option.none, [])
  | f :: rest =>
    if Food.checkCollision f point radius then
      (some (Food.consume f), Food.consume f :: rest)
    else
      let r := checkCollisionsList rest point radius
      (r.1, f :: r.2)

/-- `checkCollisions(point, radius)` on the manager. -/
def checkCollisions (fm : FoodManager) (point : Vector2D) (radius : ℝ) :
    FoodManager × Option Food :=
  let r := checkCollisionsList fm.foods point radius
  ({ fm with foods := r.2 }, r.1)

/-- One public call against the manager (`update` or `forceSpawn`) with its
oracle arguments, for stating the C6 invariant over call sequences. -/
inductive Op
  | upd (dt : ℝ) (snakeSegments : List Vector2D) (newFood : Food)
      (candidates : ℕ → Vector2D) (animSeed rotSeed : ℝ)
  | force (snakeSegments : List Vector2D) (newFood : Food)
      (candidates : ℕ → Vector2D) (animSeed rotSeed : ℝ)

/-- Run one call. -/
def applyOp (fm : FoodManager) : Op → FoodManager
  | .upd dt segs nf c a r => update fm dt segs nf c a r
  | .force segs nf c a r => forceSpawn fm segs nf c a r

/-- Run a sequence of calls. -/
def applyOps (fm : FoodManager) (ops : List Op) : FoodManager :=
  ops.foldl applyOp fm

end FoodManager

/-- `GameState` enum. -/
inductive GameState
  | menu
  | playing
  | paused
  | gameOver
deriving DecidableEq

/-- The `Game` fields touched by the collision-resolution step. -/
structure Game where
  gameState : GameState
  score : ℝ
  foodCount : ℕ
  snake : Snake
  foodManager : FoodManager
  snakeColorFlash : ℝ

namespace Game

/-- `handleFoodConsumption(food)`: grow the worm, add the food's value to
the score, bump the food counter, start the color flash, and apply the
speed-food effect (particle rendering is out of scope). -/
def handleFoodConsumption (g : Game) (food : Food) : Game :=
  let g1 := { g with snake := Snake.grow g.snake
                     score := g.score + food.value
                     foodCount := g.foodCount + 1
                     snakeColorFlash := 500 }
  if food.type = FoodType.speed then
    { g1 with snake := Snake.increaseSpeed g1.snake 10 }
  else g1

/-- `checkCollisions()` (Game): resolve food consumption against the head,
then the detector's self-collision check (a hit moves the state machine to
game over; score submission is an external collaborator). -/
def checkCollisions (g : Game) : Game :=
  let r := FoodManager.checkCollisions g.foodManager (Snake.getHead g.snake)
    g.snake.radius
  let g1 := { g with foodManager := r.1 }
  let g2 := match r.2 with
    | some f => handleFoodConsumption g1 f
    | Option.none => g1
  if (CollisionDetector.snakeSelfCollision COLLISION_TOLERANCE g2.snake).occurred then
    { g2 with gameState := GameState.gameOver }
  else g2

end Game

/-- A concrete active normal food sitting on `wormA`'s head. -/
def foodA : Food :=
  { Food.create FoodType.normal with position := ⟨100, 100⟩, isActive := true }

/-- A concrete manager holding `foodA`. -/
def fmA : FoodManager :=
  { foods := [foodA]
    lastSpawnTime := 0
    spawnInterval := 3000
    maxFoodCount := 3
    bounds := ⟨0, 0, 800, 600⟩ }

/-- A concrete game in the playing state: `wormA` with its head on `foodA`. -/
def gameA : Game :=
  { gameState := GameState.playing
    score := 0
    foodCount := 0
    snake := wormA
    foodManager := fmA
    snakeColorFlash := 0 }

end

namespace Vector2D

theorem magnitude_nonneg (v : Vector2D) : 0 ≤ magnitude v := Real.sqrt_nonneg _

theorem magnitude_eq_zero_iff (v : Vector2D) : magnitude v = 0 ↔ v = ⟨0, 0⟩ := by
  unfold magnitude
  rw [Real.sqrt_eq_zero (add_nonneg (mul_self_nonneg _) (mul_self_nonneg _))]
  constructor
  · intro h
    have hx : v.x = 0 ∧ v.y = 0 := by
      constructor <;> nlinarith [sq_nonneg v.x, sq_nonneg v.y]
    cases v
    simp_all
  · intro h
    rw [h]
    ring

theorem distance_nonneg (v w : Vector2D) : 0 ≤ distance v w := Real.sqrt_nonneg _

/-- `magnitude` of a scalar multiple. -/
theorem magnitude_multiply (v : Vector2D) (s : ℝ) :
    magnitude (multiply v s) = |s| * magnitude v := by
  unfold magnitude multiply
  rw [show v.x * s * (v.x * s) + v.y * s * (v.y * s)
      = s ^ 2 * (v.x * v.x + v.y * v.y) by ring]
  rw [Real.sqrt_mul (sq_nonneg s), Real.sqrt_sq_eq_abs]

end Vector2D

namespace MathUtils

theorem reduceDown_le (d : ℝ) : reduceDown d ≤ Real.pi := by
  induction d using reduceDown.induct with
  | case1 d h ih => rw [reduceDown, if_pos h]; exact ih
  | case2 d h => rw [reduceDown, if_neg h]; linarith [not_lt.mp h]

theorem reduceDown_congr (d : ℝ) : ∃ k : ℤ, reduceDown d = d - 2 * Real.pi * k := by
  induction d using reduceDown.induct with
  | case1 d h ih =>
    obtain ⟨k, hk⟩ := ih
    exact ⟨k + 1, by rw [reduceDown, if_pos h, hk]; push_cast; ring⟩
  | case2 d h => exact ⟨0, by rw [reduceDown, if_neg h]; push_cast; ring⟩

theorem reduceUp_ge (d : ℝ) : -Real.pi ≤ reduceUp d := by
  induction d using reduceUp.induct with
  | case1 d h ih => rw [reduceUp, if_pos h]; exact ih
  | case2 d h => rw [reduceUp, if_neg h]; linarith [not_lt.mp h]

theorem reduceUp_le (d : ℝ) (hd : d ≤ Real.pi) : reduceUp d ≤ Real.pi := by
  induction d using reduceUp.induct with
  | case1 d h ih =>
    rw [reduceUp, if_pos h]
    exact ih (by linarith [Real.pi_pos])
  | case2 d h => rw [reduceUp, if_neg h]; exact hd

theorem reduceUp_congr (d : ℝ) : ∃ k : ℤ, reduceUp d = d - 2 * Real.pi * k := by
  induction d using reduceUp.induct with
  | case1 d h ih =>
    obtain ⟨k, hk⟩ := ih
    exact ⟨k - 1, by rw [reduceUp, if_pos h, hk]; push_cast; ring⟩
  | case2 d h => exact ⟨0, by rw [reduceUp, if_neg h]; push_cast; ring⟩

end MathUtils

namespace Vector2D

theorem zero_def : zero = ⟨0, 0⟩ := rfl

theorem magnitude_normalize (v : Vector2D) (hv : v ≠ zero) :
    magnitude (normalize v) = 1 := by
  have hm : magnitude v ≠ 0 := fun h =>
    hv (by rw [zero_def]; cases v; exact (magnitude_eq_zero_iff _).mp h)
  have hmpos : 0 < magnitude v :=
    lt_of_le_of_ne (magnitude_nonneg v) (Ne.symm hm)
  unfold normalize
  rw [if_neg hm]
  unfold magnitude at *
  set m := Real.sqrt (v.x * v.x + v.y * v.y) with hmdef
  have hsq : m * m = v.x * v.x + v.y * v.y := by
    rw [hmdef]
    exact Real.mul_self_sqrt (add_nonneg (mul_self_nonneg _) (mul_self_nonneg _))
  have : v.x / m * (v.x / m) + v.y / m * (v.y / m) = 1 := by
    field_simp
    linarith [hsq]
  simp only [this, Real.sqrt_one]

/-- `dot v v` recovers the squared magnitude. -/
theorem dot_self_eq (v : Vector2D) : dot v v = magnitude v * magnitude v := by
  unfold dot magnitude
  rw [Real.mul_self_sqrt (add_nonneg (mul_self_nonneg _) (mul_self_nonneg _))]

theorem dot_self_pos (v : Vector2D) (hv : v ≠ zero) : 0 < dot v v := by
  rw [dot_self_eq]
  have hm : magnitude v ≠ 0 := fun h =>
    hv (by rw [zero_def]; cases v; exact (magnitude_eq_zero_iff _).mp h)
  have hmpos : 0 < magnitude v :=
    lt_of_le_of_ne (magnitude_nonneg v) (Ne.symm hm)
  exact mul_pos hmpos hmpos

theorem dot_normalize_self (v : Vector2D) (hv : v ≠ zero) :
    dot (normalize v) (normalize v) = 1 := by
  rw [dot_self_eq, magnitude_normalize v hv, mul_one]

/-- The model's `magnitude` agrees with the complex absolute value. -/
theorem magnitude_eq_complexAbs (v : Vector2D) :
    magnitude v = Complex.abs ⟨v.x, v.y⟩ := by
  rw [Complex.abs_apply, Complex.normSq_mk]
  rfl

/-- Rotating by `t` from the argument of `z` and pairing with `z`'s parts. -/
theorem cos_sin_dot (z : ℂ) (t : ℝ) :
    Real.cos (z.arg + t) * z.re + Real.sin (z.arg + t) * z.im
      = Complex.abs z * Real.cos t := by
  by_cases hz : z = 0
  · simp [hz]
  · have habs : Complex.abs z ≠ 0 := Complex.abs.ne_zero hz
    have hx : z.re = Complex.abs z * Real.cos z.arg := by
      rw [Complex.cos_arg hz]
      field_simp
    have hy : z.im = Complex.abs z * Real.sin z.arg := by
      rw [Complex.sin_arg]
      field_simp
    rw [hx, hy,
      show Real.cos (z.arg + t) * (Complex.abs z * Real.cos z.arg) +
          Real.sin (z.arg + t) * (Complex.abs z * Real.sin z.arg)
        = Complex.abs z *
          (Real.cos (z.arg + t) * Real.cos z.arg +
           Real.sin (z.arg + t) * Real.sin z.arg) by ring,
      ← Real.cos_sub, show z.arg + t - z.arg = t by ring]

/-- Dot product of a heading rotated by `t` with the original vector. -/
theorem dot_fromAngle_add (d : Vector2D) (t : ℝ) :
    dot (fromAngle (d.angle + t)) d = Complex.abs ⟨d.x, d.y⟩ * Real.cos t := by
  unfold dot fromAngle angle
  dsimp only
  exact cos_sin_dot ⟨d.x, d.y⟩ t

end Vector2D

/-- Claim C8: `normalize()` is total and zero-safe: on the zero vector it
returns the zero vector (never failing or dividing by zero), and on every
other vector the result has magnitude exactly 1. -/
theorem vector2d_normalize_zero_safe :
    Vector2D.normalize Vector2D.zero = Vector2D.zero ∧
    ∀ v : Vector2D, v ≠ Vector2D.zero →
      Vector2D.magnitude (Vector2D.normalize v) = 1 := by
  constructor
  · unfold Vector2D.normalize
    rw [if_pos]
    · rfl
    · exact (Vector2D.magnitude_eq_zero_iff _).mpr rfl
  · exact fun v hv => Vector2D.magnitude_normalize v hv

/-- Witness for C8 at the concrete nonzero vector (3, 4). -/
theorem vector2d_normalize_zero_safe_witness :
    (⟨3, 4⟩ : Vector2D) ≠ Vector2D.zero ∧
    Vector2D.magnitude (Vector2D.normalize ⟨3, 4⟩) = 1 := by
  refine ⟨?_, vector2d_normalize_zero_safe.2 ⟨3, 4⟩ ?_⟩ <;>
    · intro h
      rw [Vector2D.zero, Vector2D.mk.injEq] at h
      norm_num at h

/-- Claim C5, counterexample: `angleDistance(0, -π)` returns `-π`, which is
outside the claimed half-open range `(-π, π]`. -/
theorem mathutils_angleDistance_neg_pi_counterexample :
    MathUtils.angleDistance 0 (-Real.pi) = -Real.pi ∧
    ¬ (-Real.pi < MathUtils.angleDistance 0 (-Real.pi)) := by
  have hval : MathUtils.angleDistance 0 (-Real.pi) = -Real.pi := by
    unfold MathUtils.angleDistance
    rw [show -Real.pi - 0 = -Real.pi by ring]
    rw [MathUtils.reduceDown, if_neg (by linarith [Real.pi_pos])]
    rw [MathUtils.reduceUp, if_neg (by linarith [Real.pi_pos])]
  exact ⟨hval, by rw [hval]; exact lt_irrefl _⟩

/-- Claim C5, amended: `angleDistance(a1, a2)` returns a signed angular
delta congruent to `a2 - a1` modulo 2π whose magnitude is at most π, i.e.
a value in the closed interval `[-π, π]` (both endpoints are reachable). -/
theorem mathutils_angleDistance_range (a1 a2 : ℝ) :
    -Real.pi ≤ MathUtils.angleDistance a1 a2 ∧
    MathUtils.angleDistance a1 a2 ≤ Real.pi ∧
    ∃ k : ℤ, MathUtils.angleDistance a1 a2 = (a2 - a1) - 2 * Real.pi * k := by
  unfold MathUtils.angleDistance
  refine ⟨MathUtils.reduceUp_ge _, MathUtils.reduceUp_le _ (MathUtils.reduceDown_le _), ?_⟩
  obtain ⟨k1, hk1⟩ := MathUtils.reduceDown_congr (a2 - a1)
  obtain ⟨k2, hk2⟩ := MathUtils.reduceUp_congr (MathUtils.reduceDown (a2 - a1))
  exact ⟨k1 + k2, by rw [hk2, hk1]; push_cast; ring⟩


namespace Snake

theorem followOne_dist (leader f : Vector2D) (sp : ℝ) (hsp : 0 ≤ sp) :
    Vector2D.distance leader (followOne leader f sp)
      = min sp (Vector2D.distance leader f) := by
  unfold followOne
  by_cases h : sp < (leader.subtract f).magnitude
  · rw [if_pos h]
    have hdpos : 0 < (leader.subtract f).magnitude := lt_of_le_of_lt hsp h
    have hdne : (leader.subtract f).magnitude ≠ 0 := ne_of_gt hdpos
    have hsub : leader.subtract
        (f.add (((leader.subtract f).normalize).multiply
          ((leader.subtract f).magnitude - sp)))
        = (leader.subtract f).multiply (sp / (leader.subtract f).magnitude) := by
      unfold Vector2D.normalize
      rw [if_neg hdne]
      obtain ⟨lx, ly⟩ := leader
      obtain ⟨fx, fy⟩ := f
      simp only [Vector2D.subtract, Vector2D.add, Vector2D.multiply] at *
      rw [Vector2D.mk.injEq]
      constructor <;> (field_simp; ring)
    unfold Vector2D.distance
    rw [hsub, Vector2D.magnitude_multiply,
      abs_of_nonneg (div_nonneg hsp (le_of_lt hdpos)), div_mul_cancel₀ _ hdne,
      min_eq_left (le_of_lt h)]
  · rw [if_neg h]
    unfold Vector2D.distance
    rw [min_eq_right (not_lt.mp h)]

theorem followSegs_adjacent (rest : List Vector2D) :
    ∀ (leader : Vector2D) (sp : ℝ), 0 ≤ sp → ∀ i : ℕ, i < rest.length →
      Vector2D.distance ((leader :: followSegs leader rest sp).getD i Vector2D.zero)
          ((leader :: followSegs leader rest sp).getD (i + 1) Vector2D.zero)
        = min sp
          (Vector2D.distance
            ((leader :: followSegs leader rest sp).getD i Vector2D.zero)
            (rest.getD i Vector2D.zero)) := by
  induction rest with
  | nil => intro _ _ _ i hi; simp at hi
  | cons f t ih =>
    intro leader sp hsp i hi
    match i with
    | 0 =>
      simp only [followSegs, List.getD_cons_zero, List.getD_cons_succ]
      exact followOne_dist leader f sp hsp
    | Nat.succ j =>
      have hj : j < t.length := by simpa using hi
      simpa only [followSegs, List.getD_cons_succ] using
        ih (followOne leader f sp) sp hsp j hj

theorem followSegs_length (rest : List Vector2D) :
    ∀ (leader : Vector2D) (sp : ℝ), (followSegs leader rest sp).length = rest.length := by
  induction rest with
  | nil => intro _ _; rfl
  | cons f t ih => intro leader sp; simp [followSegs, ih]

theorem checkSelfCollision_fst_segments (s : Snake) :
    (checkSelfCollision s).1.segments = s.segments := by
  unfold checkSelfCollision
  split
  · rfl
  · split <;> rfl

theorem updateDirection_segments (s : Snake) (dt : ℝ) :
    (updateDirection s dt).segments = s.segments := rfl

theorem updateDirection_segmentSpacing (s : Snake) (dt : ℝ) :
    (updateDirection s dt).segmentSpacing = s.segmentSpacing := rfl

theorem update_segments_eq (s : Snake) (dt : ℝ) (halive : s.isAlive = true) :
    (update s dt).segments =
      (moveSegments (updateDirection s dt) dt).segments := by
  unfold update
  rw [if_neg (by rw [halive]; simp)]
  exact checkSelfCollision_fst_segments _

theorem moveSegments_segments_nil (s : Snake) (dt : ℝ) (hseg : s.segments = []) :
    (moveSegments s dt).segments = [] := by
  unfold moveSegments
  rw [hseg]

theorem moveSegments_segments_cons (s : Snake) (dt : ℝ) (h : Vector2D)
    (t : List Vector2D) (hseg : s.segments = h :: t) :
    (moveSegments s dt).segments =
      (h.add (s.direction.multiply (s.speed * dt / 1000)))
        :: followSegs (h.add (s.direction.multiply (s.speed * dt / 1000))) t
            s.segmentSpacing := by
  unfold moveSegments
  rw [hseg]

end Snake

/-- Claim C1: for every live worm and every `deltaTime`, after
`Snake.update(deltaTime)` every adjacent segment pair is at distance at most
`segmentSpacing`; more precisely the follow step leaves the pair at distance
`min(segmentSpacing, d)` where `d` is the follower's pre-move distance to its
updated leader — the follower moves only when `d` exceeds the spacing and
then lands exactly `segmentSpacing` behind (segments are never pushed apart).
-/
theorem snake_update_segment_spacing (s : Snake) (dt : ℝ)
    (halive : s.isAlive = true) (hsp : 0 ≤ s.segmentSpacing) :
    ∀ i : ℕ, i + 1 < (Snake.update s dt).segments.length →
      Vector2D.distance ((Snake.update s dt).segments.getD i Vector2D.zero)
          ((Snake.update s dt).segments.getD (i + 1) Vector2D.zero)
        = min s.segmentSpacing
            (Vector2D.distance
              ((Snake.update s dt).segments.getD i Vector2D.zero)
              (s.segments.getD (i + 1) Vector2D.zero)) ∧
      Vector2D.distance ((Snake.update s dt).segments.getD i Vector2D.zero)
          ((Snake.update s dt).segments.getD (i + 1) Vector2D.zero)
        ≤ s.segmentSpacing := by
  intro i hi
  rw [Snake.update_segments_eq s dt halive] at hi ⊢
  rcases hseg : s.segments with _ | ⟨h, t⟩
  · rw [Snake.moveSegments_segments_nil _ dt
      (by rw [Snake.updateDirection_segments, hseg])] at hi
    simp at hi
  · rw [Snake.moveSegments_segments_cons _ dt h t
      (by rw [Snake.updateDirection_segments, hseg]),
      Snake.updateDirection_segmentSpacing] at hi ⊢
    have hlen : i < t.length := by
      rw [List.length_cons, Snake.followSegs_length] at hi
      omega
    have hmain := Snake.followSegs_adjacent t
      (h.add ((Snake.updateDirection s dt).direction.multiply
        ((Snake.updateDirection s dt).speed * dt / 1000)))
      s.segmentSpacing hsp i hlen
    simp only [List.getD_cons_succ]
    exact ⟨hmain, le_of_eq_of_le hmain (min_le_left _ _)⟩

/-- Witness for C1: the concrete worm `wormA` is alive with nonnegative
spacing, and the spacing invariant holds after `update(1000)`. -/
theorem snake_update_segment_spacing_witness :
    wormA.isAlive = true ∧ 0 ≤ wormA.segmentSpacing ∧
    (∀ i : ℕ, i + 1 < (Snake.update wormA 1000).segments.length →
      Vector2D.distance ((Snake.update wormA 1000).segments.getD i Vector2D.zero)
          ((Snake.update wormA 1000).segments.getD (i + 1) Vector2D.zero)
        = min wormA.segmentSpacing
            (Vector2D.distance
              ((Snake.update wormA 1000).segments.getD i Vector2D.zero)
              (wormA.segments.getD (i + 1) Vector2D.zero)) ∧
      Vector2D.distance ((Snake.update wormA 1000).segments.getD i Vector2D.zero)
          ((Snake.update wormA 1000).segments.getD (i + 1) Vector2D.zero)
        ≤ wormA.segmentSpacing) :=
  ⟨rfl, by norm_num [wormA],
    snake_update_segment_spacing wormA 1000 rfl (by norm_num [wormA])⟩

namespace Vector2D

theorem magnitude_mk (a b : ℝ) : magnitude ⟨a, b⟩ = Real.sqrt (a * a + b * b) := rfl

theorem dot_mk (a b c d : ℝ) : dot ⟨a, b⟩ ⟨c, d⟩ = a * c + b * d := rfl

theorem multiply_mk (a b s : ℝ) : multiply ⟨a, b⟩ s = ⟨a * s, b * s⟩ := rfl

theorem fromAngle_def (a : ℝ) : fromAngle a = ⟨Real.cos a, Real.sin a⟩ := rfl

theorem normalize_mk (a b : ℝ) :
    normalize ⟨a, b⟩ =
      if Real.sqrt (a * a + b * b) = 0 then ⟨0, 0⟩
      else ⟨a / Real.sqrt (a * a + b * b), b / Real.sqrt (a * a + b * b)⟩ := rfl

theorem normalize_of_unit (a b : ℝ) (h : a * a + b * b = 1) :
    normalize ⟨a, b⟩ = ⟨a, b⟩ := by
  rw [normalize_mk, h, Real.sqrt_one, if_neg one_ne_zero, div_one, div_one]

theorem complex_ne_zero (v : Vector2D) (hv : v ≠ zero) :
    (⟨v.x, v.y⟩ : ℂ) ≠ 0 := by
  intro h
  apply hv
  have hx : v.x = 0 := by simpa using congrArg Complex.re h
  have hy : v.y = 0 := by simpa using congrArg Complex.im h
  rw [zero_def]
  cases v
  simp_all

end Vector2D

namespace MathUtils

theorem clamp_le_hi (x lo hi : ℝ) : clamp x lo hi ≤ hi := min_le_right _ _

theorem lo_le_clamp (x lo hi : ℝ) (h : lo ≤ hi) : lo ≤ clamp x lo hi :=
  le_min (le_max_right _ _) h

end MathUtils

namespace Snake

theorem checkSelfCollision_fst_direction (s : Snake) :
    (checkSelfCollision s).1.direction = s.direction := by
  unfold checkSelfCollision
  split
  · rfl
  · split <;> rfl

theorem moveSegments_direction (s : Snake) (dt : ℝ) :
    (moveSegments s dt).direction = s.direction := by
  unfold moveSegments
  split <;> rfl

theorem update_dead (s : Snake) (dt : ℝ) (hdead : s.isAlive = false) :
    update s dt = s := by
  unfold update
  rw [if_pos hdead]

theorem update_direction_alive (s : Snake) (dt : ℝ) (halive : s.isAlive = true) :
    (update s dt).direction = Vector2D.fromAngle (s.direction.angle +
      MathUtils.clamp (MathUtils.angleDistance s.direction.angle s.targetDirection.angle)
        (-(turningSpeed * dt / 1000)) (turningSpeed * dt / 1000)) := by
  unfold update
  rw [if_neg (by rw [halive]; simp)]
  rw [checkSelfCollision_fst_direction, moveSegments_direction]
  rfl

theorem turn_reverse_eq (s : Snake) (hdir : s.direction ≠ Vector2D.zero) :
    turn s (s.direction.multiply (-1)) = s := by
  have hne : s.direction.multiply (-1) ≠ Vector2D.zero := by
    intro h
    apply hdir
    rw [Vector2D.zero_def] at h ⊢
    unfold Vector2D.multiply at h
    rw [Vector2D.mk.injEq] at h ⊢
    constructor <;> nlinarith [h.1, h.2]
  simp only [turn]
  rw [if_neg]
  rw [Vector2D.dot_normalize_self _ hne]
  norm_num

end Snake

/-- Claim C3, counterexample: at the exact threshold (requested direction
(-4/5, 3/5) against heading (1,0), normalized dot with the reverse equal to
0.8) `turn` does NOT update `targetDirection`, contradicting "updates exactly
when the dot product does not exceed 0.8"; and with target heading (-4/5,
3/5), turning with the exact reverse and then updating with deltaTime = 1000
leaves `direction.dot(previousDirection) = -4/5 ≤ 0`, contradicting the
claimed `> 0`. -/
theorem snake_turn_claim_counterexample :
    (Vector2D.dot (Vector2D.normalize ⟨-4/5, 3/5⟩)
        (Vector2D.normalize (wormB.direction.multiply (-1))) = 0.8 ∧
      (Snake.turn wormB ⟨-4/5, 3/5⟩).targetDirection ≠
        Vector2D.normalize ⟨-4/5, 3/5⟩) ∧
    ¬ (0 < Vector2D.dot
        (Snake.update (Snake.turn wormC (wormC.direction.multiply (-1))) 1000).direction
        wormC.direction) := by
  have hrev : wormB.direction.multiply (-1) = (⟨-1, 0⟩ : Vector2D) := by
    rw [show wormB.direction = (⟨1, 0⟩ : Vector2D) from rfl, Vector2D.multiply_mk]
    norm_num
  have hna : Vector2D.normalize ⟨-4/5, 3/5⟩ = (⟨-4/5, 3/5⟩ : Vector2D) :=
    Vector2D.normalize_of_unit _ _ (by norm_num)
  have hnb : Vector2D.normalize ⟨-1, 0⟩ = (⟨-1, 0⟩ : Vector2D) :=
    Vector2D.normalize_of_unit _ _ (by norm_num)
  have hdot : Vector2D.dot (Vector2D.normalize ⟨-4/5, 3/5⟩)
      (Vector2D.normalize (wormB.direction.multiply (-1))) = 0.8 := by
    rw [hrev, hna, hnb, Vector2D.dot_mk]
    norm_num
  have hcond : ¬ (Vector2D.dot (Vector2D.normalize ⟨-4/5, 3/5⟩)
      (Vector2D.normalize (wormB.direction.multiply (-1))) < 0.8) := by
    rw [hdot]
    norm_num
  have hturnB : Snake.turn wormB ⟨-4/5, 3/5⟩ = wormB := by
    simp only [Snake.turn]
    rw [if_neg hcond]
  refine ⟨⟨hdot, ?_⟩, ?_⟩
  · rw [hturnB, hna]
    intro h
    rw [show wormB.targetDirection = (⟨1, 0⟩ : Vector2D) from rfl,
      Vector2D.mk.injEq] at h
    norm_num at h
  · -- the post-update heading is exactly the target (-4/5, 3/5)
    have hdirne : wormC.direction ≠ Vector2D.zero := by
      intro h
      rw [show wormC.direction = (⟨1, 0⟩ : Vector2D) from rfl, Vector2D.zero_def,
        Vector2D.mk.injEq] at h
      exact one_ne_zero h.1
    rw [Snake.turn_reverse_eq wormC hdirne]
    have hang0 : Vector2D.angle ⟨1, 0⟩ = 0 := by
      unfold Vector2D.angle
      rw [show ({ re := (1:ℝ), im := (0:ℝ) } : ℂ) = 1 from
        Complex.ext_iff.mpr ⟨by simp, by simp⟩]
      exact Complex.arg_one
    have hθmem : Vector2D.angle ⟨-4/5, 3/5⟩ ∈ Set.Ioc (-Real.pi) Real.pi :=
      Complex.arg_mem_Ioc _
    have hπ5 : Real.pi < 5 := lt_trans Real.pi_lt_d2 (by norm_num)
    have hAD : MathUtils.angleDistance 0 (Vector2D.angle ⟨-4/5, 3/5⟩)
        = Vector2D.angle ⟨-4/5, 3/5⟩ := by
      unfold MathUtils.angleDistance
      rw [show Vector2D.angle ⟨-4/5, 3/5⟩ - 0 = Vector2D.angle ⟨-4/5, 3/5⟩ by ring]
      rw [MathUtils.reduceDown, if_neg (not_lt.mpr hθmem.2)]
      rw [MathUtils.reduceUp, if_neg (not_lt.mpr (le_of_lt hθmem.1))]
    have hclamp : MathUtils.clamp (Vector2D.angle ⟨-4/5, 3/5⟩)
        (-(Snake.turningSpeed * 1000 / 1000)) (Snake.turningSpeed * 1000 / 1000)
        = Vector2D.angle ⟨-4/5, 3/5⟩ := by
      unfold MathUtils.clamp Snake.turningSpeed
      rw [show (5 : ℝ) * 1000 / 1000 = 5 by norm_num]
      rw [max_eq_left (by linarith [hθmem.1]), min_eq_left (by linarith [hθmem.2])]
    have hdirC : (Snake.update wormC 1000).direction
        = Vector2D.fromAngle (Vector2D.angle ⟨-4/5, 3/5⟩) := by
      rw [Snake.update_direction_alive wormC 1000 rfl,
        show wormC.direction = (⟨1, 0⟩ : Vector2D) from rfl,
        show wormC.targetDirection = (⟨-4/5, 3/5⟩ : Vector2D) from rfl,
        hang0, hAD, hclamp, zero_add]
    have hzne : ({ re := (-4/5 : ℝ), im := (3/5 : ℝ) } : ℂ) ≠ 0 := by
      intro h
      have := congrArg Complex.re h
      norm_num at this
    have habs1 : Complex.abs ⟨-4/5, 3/5⟩ = 1 := by
      rw [Complex.abs_apply, Complex.normSq_mk,
        show ((-4/5 : ℝ)) * (-4/5) + 3/5 * (3/5) = 1 by norm_num, Real.sqrt_one]
    have hcos : Real.cos (Vector2D.angle ⟨-4/5, 3/5⟩) = -4/5 := by
      have h := Complex.cos_arg hzne
      rw [habs1] at h
      unfold Vector2D.angle
      simpa using h
    rw [hdirC, Vector2D.fromAngle_def,
      show wormC.direction = (⟨1, 0⟩ : Vector2D) from rfl, Vector2D.dot_mk, hcos]
    norm_num

/-- Claim C3, amended: `turn(newDirection)` updates `targetDirection` (to the
normalized request) exactly when the normalized dot product with the exact
reverse of the heading is STRICTLY below 0.8, and otherwise leaves the worm
unchanged; `turn` never modifies `direction`. Turning with the exact reverse
of a nonzero heading leaves `targetDirection` unchanged, and when
`turningSpeed * deltaTime / 1000 < π/2` (with nonnegative deltaTime) the
direction after the next `update` still satisfies
`direction.dot(previousDirection) > 0`. -/
theorem snake_turn_no_reversal (s : Snake) (nd : Vector2D) (dt : ℝ) :
    (((Vector2D.dot (nd.normalize) ((s.direction.multiply (-1)).normalize) < 0.8 →
        Snake.turn s nd = { s with targetDirection := nd.normalize }) ∧
      (¬ Vector2D.dot (nd.normalize) ((s.direction.multiply (-1)).normalize) < 0.8 →
        Snake.turn s nd = s)) ∧
      (Snake.turn s nd).direction = s.direction) ∧
    (s.direction ≠ Vector2D.zero →
      Snake.turn s (s.direction.multiply (-1)) = s) ∧
    (s.direction ≠ Vector2D.zero → 0 ≤ dt →
      Snake.turningSpeed * dt / 1000 < Real.pi / 2 →
      0 < Vector2D.dot
        (Snake.update (Snake.turn s (s.direction.multiply (-1))) dt).direction
        s.direction) := by
  refine ⟨⟨⟨?_, ?_⟩, ?_⟩, ?_, ?_⟩
  · intro h
    simp only [Snake.turn]
    rw [if_pos h]
  · intro h
    simp only [Snake.turn]
    rw [if_neg h]
  · simp only [Snake.turn]
    split <;> rfl
  · exact fun hdir => Snake.turn_reverse_eq s hdir
  · intro hdir hdt hlt
    rw [Snake.turn_reverse_eq s hdir]
    by_cases halive : s.isAlive = true
    · rw [Snake.update_direction_alive s dt halive, Vector2D.dot_fromAngle_add]
      have hm : 0 ≤ Snake.turningSpeed * dt / 1000 :=
        div_nonneg (mul_nonneg (by unfold Snake.turningSpeed; norm_num) hdt)
          (by norm_num)
      apply mul_pos
      · exact Complex.abs.pos (Vector2D.complex_ne_zero s.direction hdir)
      · apply Real.cos_pos_of_mem_Ioo
        constructor
        · have := MathUtils.lo_le_clamp
            (MathUtils.angleDistance s.direction.angle s.targetDirection.angle)
            (-(Snake.turningSpeed * dt / 1000)) (Snake.turningSpeed * dt / 1000)
            (by linarith)
          linarith
        · have := MathUtils.clamp_le_hi
            (MathUtils.angleDistance s.direction.angle s.targetDirection.angle)
            (-(Snake.turningSpeed * dt / 1000)) (Snake.turningSpeed * dt / 1000)
          linarith
    · have hdead : s.isAlive = false := by
        cases hb : s.isAlive
        · rfl
        · exact absurd hb halive
      rw [Snake.update_dead s dt hdead]
      exact Vector2D.dot_self_pos s.direction hdir

namespace CollisionDetector

theorem circleToCircle_occurred (tol : ℝ) (c1 : Vector2D) (r1 : ℝ)
    (c2 : Vector2D) (r2 : ℝ) :
    (circleToCircle tol c1 r1 c2 r2).occurred = true ↔
      Vector2D.distance c1 c2 ≤ r1 + r2 + tol := by
  unfold circleToCircle
  split <;> simp_all [noCollision]

theorem scanSegments_occurred (tol : ℝ) (head : Vector2D) (radius : ℝ)
    (l : List Vector2D) :
    (scanSegments tol head radius l).occurred = true ↔
      ∃ v ∈ l, Vector2D.distance head v ≤ radius + radius + tol := by
  induction l with
  | nil => simp [scanSegments, noCollision]
  | cons v rest ih =>
    simp only [scanSegments]
    by_cases h : Vector2D.distance head v ≤ radius + radius + tol
    · have hc : (circleToCircle tol head radius v radius).occurred = true :=
        (circleToCircle_occurred tol head radius v radius).mpr h
      rw [if_pos hc]
      simp [hc, h]
    · have hc : ¬ ((circleToCircle tol head radius v radius).occurred = true) :=
        fun hcc => h ((circleToCircle_occurred tol head radius v radius).mp hcc)
      rw [if_neg hc, ih]
      simp [h]

end CollisionDetector

/-- Membership in `drop 3` restated through indices from 3 on. -/
theorem exists_mem_drop3_iff (l : List Vector2D) (P : Vector2D → Prop) :
    (∃ v ∈ l.drop 3, P v) ↔
      ∃ i : ℕ, 3 ≤ i ∧ i < l.length ∧ P (l.getD i Vector2D.zero) := by
  constructor
  · rintro ⟨v, hv, hP⟩
    obtain ⟨j, hj, hget⟩ := List.mem_iff_getElem.mp hv
    refine ⟨3 + j, by omega, ?_, ?_⟩
    · have := List.length_drop 3 l
      omega
    · have hlt : 3 + j < l.length := by
        have := List.length_drop 3 l
        omega
      have heq : l.getD (3 + j) Vector2D.zero = v := by
        rw [List.getD_eq_getElem l Vector2D.zero hlt]
        rw [List.getElem_drop] at hget
        exact hget
      rw [heq]
      exact hP
  · rintro ⟨i, h3, hlen, hP⟩
    refine ⟨l.getD i Vector2D.zero, ?_, hP⟩
    have hj : i - 3 < (l.drop 3).length := by
      rw [List.length_drop]
      omega
    rw [List.getD_eq_getElem l Vector2D.zero hlen]
    apply List.mem_iff_getElem.mpr
    refine ⟨i - 3, hj, ?_⟩
    rw [List.getElem_drop]
    congr 1
    omega

namespace Snake

theorem checkSelfCollision_short (s : Snake) (h : s.segments.length < 4) :
    checkSelfCollision s = (s, false) := by
  unfold checkSelfCollision
  rw [if_pos h]

end Snake

/-- Claim C4: self-collision detection returns no collision below 4
segments regardless of positions; for longer worms both versions test the
head only against segments from index 3 on (skipping the neck), and on a
hit `Snake.checkSelfCollision` sets `isAlive = false` and returns true
(returning the worm unchanged otherwise). -/
theorem self_collision_skips_neck (s : Snake) (tol : ℝ) :
    (s.segments.length < 4 →
      Snake.checkSelfCollision s = (s, false) ∧
      CollisionDetector.snakeSelfCollision tol s = noCollision) ∧
    ((CollisionDetector.snakeSelfCollision tol s).occurred = true ↔
      4 ≤ s.segments.length ∧
        ∃ i : ℕ, 3 ≤ i ∧ i < s.segments.length ∧
          Vector2D.distance (Snake.getHead s) (s.segments.getD i Vector2D.zero)
            ≤ s.radius + s.radius + tol) ∧
    ((Snake.checkSelfCollision s).2 = true ↔
      4 ≤ s.segments.length ∧
        ∃ i : ℕ, 3 ≤ i ∧ i < s.segments.length ∧
          Vector2D.distance (Snake.getHead s) (s.segments.getD i Vector2D.zero)
            < s.radius * 2) ∧
    ((Snake.checkSelfCollision s).2 = true →
      (Snake.checkSelfCollision s).1 = { s with isAlive := false }) ∧
    ((Snake.checkSelfCollision s).2 = false → (Snake.checkSelfCollision s).1 = s) := by
  refine ⟨?_, ?_, ?_, ?_, ?_⟩
  · intro h
    refine ⟨Snake.checkSelfCollision_short s h, ?_⟩
    unfold CollisionDetector.snakeSelfCollision
    rw [if_pos h]
  · unfold CollisionDetector.snakeSelfCollision
    by_cases h : s.segments.length < 4
    · rw [if_pos h]
      simp only [noCollision]
      constructor
      · intro hcc
        simp at hcc
      · intro ⟨h4, _⟩
        omega
    · rw [if_neg h, CollisionDetector.scanSegments_occurred]
      rw [show (∃ v ∈ s.segments.drop 3,
            Vector2D.distance (Snake.getHead s) v ≤ s.radius + s.radius + tol) ↔ _
          from exists_mem_drop3_iff s.segments _]
      constructor
      · intro hex
        exact ⟨by omega, hex⟩
      · intro ⟨_, hex⟩
        exact hex
  · unfold Snake.checkSelfCollision
    by_cases h : s.segments.length < 4
    · rw [if_pos h]
      constructor
      · intro hcc
        simp at hcc
      · intro ⟨h4, _⟩
        omega
    · rw [if_neg h]
      by_cases hex : ∃ v ∈ s.segments.drop 3,
          Vector2D.distance (Snake.getHead s) v < s.radius * 2
      · rw [if_pos hex]
        simp only [true_iff]
        exact ⟨by omega, (exists_mem_drop3_iff s.segments _).mp hex⟩
      · rw [if_neg hex]
        constructor
        · intro hcc
          simp at hcc
        · intro ⟨h4, hexi⟩
          exact absurd ((exists_mem_drop3_iff s.segments _).mpr hexi) hex
  · unfold Snake.checkSelfCollision
    split
    · intro hcc
      simp at hcc
    · split
      · intro _
        rfl
      · intro hcc
        simp at hcc
  · unfold Snake.checkSelfCollision
    split
    · intro _
      rfl
    · split
      · intro hcc
        simp at hcc
      · intro _
        rfl

/-- Witness for C4 at the concrete 3-segment worm `wormA` (below the
4-segment threshold). -/
theorem self_collision_skips_neck_witness :
    wormA.segments.length < 4 ∧
    (Snake.checkSelfCollision wormA = (wormA, false) ∧
      CollisionDetector.snakeSelfCollision 0.1 wormA = noCollision) :=
  ⟨by simp [wormA], (self_collision_skips_neck wormA 0.1).1 (by simp [wormA])⟩

namespace FoodManager

theorem spawnNewFood_foods_length (fm : FoodManager) (segs : List Vector2D)
    (nf : Food) (c : ℕ → Vector2D) (a r : ℝ) :
    (spawnNewFood fm segs nf c a r).foods.length = fm.foods.length + 1 := by
  simp [spawnNewFood]

theorem update_maxFoodCount (fm : FoodManager) (dt : ℝ) (segs : List Vector2D)
    (nf : Food) (c : ℕ → Vector2D) (a r : ℝ) :
    (update fm dt segs nf c a r).maxFoodCount = fm.maxFoodCount := by
  simp only [update]
  split <;> rfl

theorem forceSpawn_maxFoodCount (fm : FoodManager) (segs : List Vector2D)
    (nf : Food) (c : ℕ → Vector2D) (a r : ℝ) :
    (forceSpawn fm segs nf c a r).maxFoodCount = fm.maxFoodCount := by
  unfold forceSpawn
  split <;> rfl

theorem applyOp_maxFoodCount (fm : FoodManager) (op : Op) :
    (applyOp fm op).maxFoodCount = fm.maxFoodCount := by
  cases op with
  | upd dt segs nf c a r => exact update_maxFoodCount fm dt segs nf c a r
  | force segs nf c a r => exact forceSpawn_maxFoodCount fm segs nf c a r

theorem applyOp_length_le_succ (fm : FoodManager) (op : Op) :
    (applyOp fm op).foods.length ≤ fm.foods.length + 1 := by
  cases op with
  | upd dt segs nf c a r =>
    have hL : ((fm.foods.map (fun f => Food.update f dt)).filter
        (fun f => f.isActive)).length ≤ fm.foods.length :=
      le_trans (List.length_filter_le _ _) (le_of_eq (List.length_map _ _))
    simp only [applyOp]
    simp only [update]
    split
    · rename_i hc
      try dsimp only at hc ⊢
      simp only [spawnNewFood, List.length_append, List.length_singleton]
      try dsimp only
      omega
    · try dsimp only
      omega
  | force segs nf c a r =>
    simp only [applyOp]
    unfold forceSpawn
    split
    · rw [spawnNewFood_foods_length]
    · omega

theorem applyOp_length_le_max (fm : FoodManager) (op : Op)
    (h : fm.foods.length ≤ fm.maxFoodCount) :
    (applyOp fm op).foods.length ≤ fm.maxFoodCount := by
  cases op with
  | upd dt segs nf c a r =>
    have hL : ((fm.foods.map (fun f => Food.update f dt)).filter
        (fun f => f.isActive)).length ≤ fm.foods.length :=
      le_trans (List.length_filter_le _ _) (le_of_eq (List.length_map _ _))
    simp only [applyOp]
    simp only [update]
    split
    · rename_i hc
      try dsimp only at hc ⊢
      simp only [spawnNewFood, List.length_append, List.length_singleton]
      try dsimp only
      omega
    · try dsimp only
      omega
  | force segs nf c a r =>
    simp only [applyOp]
    unfold forceSpawn
    split
    · rename_i hc
      rw [spawnNewFood_foods_length]
      omega
    · exact h

theorem applyOp_length_le_self (fm : FoodManager) (op : Op)
    (h : fm.maxFoodCount ≤ fm.foods.length) :
    (applyOp fm op).foods.length ≤ fm.foods.length := by
  cases op with
  | upd dt segs nf c a r =>
    have hL : ((fm.foods.map (fun f => Food.update f dt)).filter
        (fun f => f.isActive)).length ≤ fm.foods.length :=
      le_trans (List.length_filter_le _ _) (le_of_eq (List.length_map _ _))
    simp only [applyOp]
    simp only [update]
    split
    · rename_i hc
      try dsimp only at hc ⊢
      simp only [spawnNewFood, List.length_append, List.length_singleton]
      try dsimp only
      omega
    · try dsimp only
      omega
  | force segs nf c a r =>
    simp only [applyOp]
    unfold forceSpawn
    split
    · rename_i hc
      omega
    · omega

end FoodManager

/-- Claim C6: under any sequence of `update` / `forceSpawn` calls the food
collection never exceeds `maxFoodCount` (given it starts within the bound);
each single call adds at most one food, and adds none when the count is not
strictly below `maxFoodCount`. -/
theorem foodmanager_max_food_bound :
    (∀ (fm : FoodManager) (ops : List FoodManager.Op),
      fm.foods.length ≤ fm.maxFoodCount →
      (FoodManager.applyOps fm ops).foods.length ≤ fm.maxFoodCount) ∧
    (∀ (fm : FoodManager) (op : FoodManager.Op),
      (FoodManager.applyOp fm op).foods.length ≤ fm.foods.length + 1) ∧
    (∀ (fm : FoodManager) (op : FoodManager.Op),
      fm.maxFoodCount ≤ fm.foods.length →
      (FoodManager.applyOp fm op).foods.length ≤ fm.foods.length) := by
  refine ⟨?_, FoodManager.applyOp_length_le_succ, FoodManager.applyOp_length_le_self⟩
  intro fm ops
  induction ops generalizing fm with
  | nil => exact fun h => h
  | cons op rest ih =>
    intro h
    have h1 : (FoodManager.applyOp fm op).foods.length
        ≤ (FoodManager.applyOp fm op).maxFoodCount := by
      rw [FoodManager.applyOp_maxFoodCount]
      exact FoodManager.applyOp_length_le_max fm op h
    have h2 := ih (FoodManager.applyOp fm op) h1
    rw [FoodManager.applyOp_maxFoodCount] at h2
    exact h2

namespace Food

theorem spawnLoop_spec (f : Food) (existing : List Vector2D)
    (candidates : ℕ → Vector2D) :
    ∀ i : ℕ, i < 50 →
      i + 1 ≤ (spawnLoop f existing candidates i).2 ∧
      (spawnLoop f existing candidates i).2 ≤ 50 ∧
      (spawnLoop f existing candidates i).1
        = candidates ((spawnLoop f existing candidates i).2 - 1) ∧
      ((spawnLoop f existing candidates i).2 < 50 →
        ¬ isPositionTooClose f (spawnLoop f existing candidates i).1 existing) := by
  intro i
  induction i using spawnLoop.induct f existing candidates with
  | case1 i h ih =>
    intro _
    rw [spawnLoop, dif_pos h]
    have := ih h.1
    exact ⟨by omega, this.2.1, this.2.2.1, this.2.2.2⟩
  | case2 i h =>
    intro hi
    rw [spawnLoop, dif_neg h]
    push_neg at h
    refine ⟨le_refl _, by omega, by simp, ?_⟩
    intro hlt
    exact h (by omega)

end Food

/-- Claim C7, counterexample: with one existing position at distance exactly
`radius * 4` (normal food, radius 6, distance 24), `spawn` accepts the very
first sample — one attempt, budget not exhausted — even though the sample's
clearance does not EXCEED `radius * 4`, contradicting the claimed acceptance
criterion. -/
theorem food_spawn_boundary_counterexample :
    (Food.spawn (Food.create FoodType.normal) [⟨124, 100⟩]
        (fun _ => ⟨100, 100⟩) 0 0).2 = 1 ∧
    (Food.spawn (Food.create FoodType.normal) [⟨124, 100⟩]
        (fun _ => ⟨100, 100⟩) 0 0).1.position = (⟨100, 100⟩ : Vector2D) ∧
    ¬ ((Food.create FoodType.normal).radius * 4 <
        Vector2D.distance (⟨100, 100⟩ : Vector2D) ⟨124, 100⟩) := by
  have hdist : Vector2D.distance (⟨100, 100⟩ : Vector2D) ⟨124, 100⟩ = 24 := by
    unfold Vector2D.distance Vector2D.subtract
    rw [show ((⟨100, 100⟩ : Vector2D).x - (⟨124, 100⟩ : Vector2D).x) = -24 by norm_num,
      show ((⟨100, 100⟩ : Vector2D).y - (⟨124, 100⟩ : Vector2D).y) = 0 by norm_num,
      Vector2D.magnitude_mk,
      show ((-24 : ℝ) * (-24) + 0 * 0) = 24 ^ 2 by norm_num,
      Real.sqrt_sq (by norm_num)]
  have hrad : (Food.create FoodType.normal).radius = 6 := by
    simp [Food.create, FOOD_RADIUS]
  have hclose : ¬ Food.isPositionTooClose (Food.create FoodType.normal)
      (⟨100, 100⟩ : Vector2D) [⟨124, 100⟩] := by
    rintro ⟨p, hp, hlt⟩
    rw [List.mem_singleton] at hp
    subst hp
    rw [hdist, hrad] at hlt
    norm_num at hlt
  have hloop : Food.spawnLoop (Food.create FoodType.normal) [⟨124, 100⟩]
      (fun _ => ⟨100, 100⟩) 0 = (⟨100, 100⟩, 1) := by
    rw [Food.spawnLoop, dif_neg]
    rintro ⟨-, hc⟩
    exact hclose hc
  refine ⟨?_, ?_, ?_⟩
  · unfold Food.spawn
    rw [hloop]
  · unfold Food.spawn
    rw [hloop]
  · rw [hdist, hrad]
    norm_num

/-- Claim C7, amended: `spawn` always terminates with `isActive = true`,
makes between 1 and 50 attempts, returns the last sampled position, and
whenever it stops before exhausting the 50-attempt budget the accepted
position's distance to every existing position is AT LEAST `radius * 4`
(positions at exactly that distance are accepted too). -/
theorem food_spawn_terminates (f : Food) (existing : List Vector2D)
    (candidates : ℕ → Vector2D) (animSeed rotSeed : ℝ) :
    1 ≤ (Food.spawn f existing candidates animSeed rotSeed).2 ∧
    (Food.spawn f existing candidates animSeed rotSeed).2 ≤ 50 ∧
    (Food.spawn f existing candidates animSeed rotSeed).1.isActive = true ∧
    (Food.spawn f existing candidates animSeed rotSeed).1.position
      = candidates ((Food.spawn f existing candidates animSeed rotSeed).2 - 1) ∧
    ((Food.spawn f existing candidates animSeed rotSeed).2 < 50 →
      ∀ p ∈ existing, f.radius * 4 ≤
        Vector2D.distance
          (Food.spawn f existing candidates animSeed rotSeed).1.position p) := by
  have hspec := Food.spawnLoop_spec f existing candidates 0 (by norm_num)
  unfold Food.spawn
  refine ⟨by dsimp only; omega, by dsimp only; omega, rfl, ?_, ?_⟩
  · dsimp only
    exact hspec.2.2.1
  · dsimp only
    intro hlt p hp
    have hnc := hspec.2.2.2 hlt
    unfold Food.isPositionTooClose at hnc
    push_neg at hnc
    exact hnc p hp

namespace SpatialGrid

theorem mem_intRange (a b x : ℤ) : x ∈ intRange a b ↔ a ≤ x ∧ x ≤ b := by
  unfold intRange
  simp only [List.mem_map, List.mem_range]
  constructor
  · rintro ⟨i, hi, rfl⟩
    omega
  · rintro ⟨h1, h2⟩
    exact ⟨(x - a).toNat, by omega, by omega⟩

theorem mem_insert_self (bounds : Rectangle) (cell : ℝ) (g : Grid) (p : Vector2D) :
    p ∈ insert bounds cell g p (getGridKey bounds cell p) := by
  unfold insert
  rw [if_pos rfl]
  simp

theorem mem_insert_mono (bounds : Rectangle) (cell : ℝ) (g : Grid)
    (q p : Vector2D) (k : ℤ × ℤ) (h : p ∈ g k) : p ∈ insert bounds cell g q k := by
  unfold insert
  split
  · exact List.mem_append_left _ h
  · exact h

theorem mem_insertAll_mono (bounds : Rectangle) (cell : ℝ) (ps : List Vector2D) :
    ∀ (g : Grid) (k : ℤ × ℤ) (p : Vector2D), p ∈ g k →
      p ∈ insertAll bounds cell g ps k := by
  induction ps with
  | nil => intro g k p h; exact h
  | cons f t ih =>
    intro g k p h
    exact ih _ _ _ (mem_insert_mono bounds cell g f p k h)

theorem mem_insertAll_self (bounds : Rectangle) (cell : ℝ) (ps : List Vector2D)
    (p : Vector2D) (hp : p ∈ ps) :
    ∀ g : Grid, p ∈ insertAll bounds cell g ps (getGridKey bounds cell p) := by
  induction ps with
  | nil => cases hp
  | cons f t ih =>
    intro g
    rcases List.mem_cons.mp hp with rfl | hmem
    · exact mem_insertAll_mono bounds cell t _ _ _ (mem_insert_self bounds cell g p)
    · exact ih hmem _

end SpatialGrid

/-- Integer floors move apart by at most the ceiling of the real gap. -/
theorem floor_sub_le_ceil (a b t : ℝ) (h : a - b ≤ t) : ⌊a⌋ - ⌊b⌋ ≤ ⌈t⌉ := by
  have h1 : (⌊a⌋ : ℝ) ≤ a := Int.floor_le a
  have h2 : b < (⌊b⌋ : ℝ) + 1 := Int.lt_floor_add_one b
  have h3 : t ≤ (⌈t⌉ : ℝ) := Int.le_ceil t
  have h4 : ((⌊a⌋ - ⌊b⌋ : ℤ) : ℝ) < ((⌈t⌉ : ℤ) : ℝ) + 1 := by push_cast; linarith
  have h5 : (⌊a⌋ - ⌊b⌋ : ℤ) < ⌈t⌉ + 1 := by exact_mod_cast h4
  omega

/-- Each coordinate gap is bounded by the euclidean distance. -/
theorem abs_sub_le_distance (p q : Vector2D) :
    |p.x - q.x| ≤ Vector2D.distance p q ∧ |p.y - q.y| ≤ Vector2D.distance p q := by
  unfold Vector2D.distance Vector2D.subtract Vector2D.magnitude
  dsimp only
  constructor
  · rw [← Real.sqrt_mul_self_eq_abs (p.x - q.x)]
    exact Real.sqrt_le_sqrt (by nlinarith [mul_self_nonneg (p.y - q.y)])
  · rw [← Real.sqrt_mul_self_eq_abs (p.y - q.y)]
    exact Real.sqrt_le_sqrt (by nlinarith [mul_self_nonneg (p.x - q.x)])

/-- Claim C9: the SpatialGrid broad phase has no false negatives: every
inserted point within the query radius of the query position appears in the
list `getNearbyPoints` returns (which scans the `ceil(radius/cellSize)`-ring
of buckets around the query cell). -/
theorem spatialgrid_no_false_negatives (bounds : Rectangle) (cellSize : ℝ)
    (pts : List Vector2D) (q : Vector2D) (radius : ℝ) (hc : 0 < cellSize) :
    ∀ p ∈ pts, Vector2D.distance p q ≤ radius →
      p ∈ SpatialGrid.getNearbyPoints bounds cellSize
          (SpatialGrid.insertAll bounds cellSize SpatialGrid.emptyGrid pts) q radius := by
  intro p hp hd
  have habs := abs_sub_le_distance p q
  have hxle : p.x - q.x ≤ radius := le_trans (le_trans (le_abs_self _) habs.1) hd
  have hxge : q.x - p.x ≤ radius := by
    have h1 : q.x - p.x ≤ |p.x - q.x| := by
      rw [abs_sub_comm]
      exact le_abs_self _
    linarith [habs.1]
  have hyle : p.y - q.y ≤ radius := le_trans (le_trans (le_abs_self _) habs.2) hd
  have hyge : q.y - p.y ≤ radius := by
    have h1 : q.y - p.y ≤ |p.y - q.y| := by
      rw [abs_sub_comm]
      exact le_abs_self _
    linarith [habs.2]
  have hgap : ∀ u v : ℝ, u - v ≤ radius →
      ⌊(u - bounds.x) / cellSize⌋ - ⌊(v - bounds.x) / cellSize⌋ ≤ ⌈radius / cellSize⌉ := by
    intro u v huv
    apply floor_sub_le_ceil
    rw [div_sub_div_same, show u - bounds.x - (v - bounds.x) = u - v by ring]
    exact (div_le_div_iff_of_pos_right hc).mpr huv
  have hgapy : ∀ u v : ℝ, u - v ≤ radius →
      ⌊(u - bounds.y) / cellSize⌋ - ⌊(v - bounds.y) / cellSize⌋ ≤ ⌈radius / cellSize⌉ := by
    intro u v huv
    apply floor_sub_le_ceil
    rw [div_sub_div_same, show u - bounds.y - (v - bounds.y) = u - v by ring]
    exact (div_le_div_iff_of_pos_right hc).mpr huv
  have hx1 := hgap p.x q.x hxle
  have hx2 := hgap q.x p.x hxge
  have hy1 := hgapy p.y q.y hyle
  have hy2 := hgapy q.y p.y hyge
  unfold SpatialGrid.getNearbyPoints
  dsimp only
  apply List.mem_flatMap.mpr
  refine ⟨(SpatialGrid.getGridKey bounds cellSize p).1
    - (SpatialGrid.getGridKey bounds cellSize q).1, ?_, ?_⟩
  · rw [SpatialGrid.mem_intRange]
    unfold SpatialGrid.getGridKey
    dsimp only
    omega
  · apply List.mem_flatMap.mpr
    refine ⟨(SpatialGrid.getGridKey bounds cellSize p).2
      - (SpatialGrid.getGridKey bounds cellSize q).2, ?_, ?_⟩
    · rw [SpatialGrid.mem_intRange]
      unfold SpatialGrid.getGridKey
      dsimp only
      omega
    · have hkey : ((SpatialGrid.getGridKey bounds cellSize q).1 +
          ((SpatialGrid.getGridKey bounds cellSize p).1
            - (SpatialGrid.getGridKey bounds cellSize q).1),
          (SpatialGrid.getGridKey bounds cellSize q).2 +
          ((SpatialGrid.getGridKey bounds cellSize p).2
            - (SpatialGrid.getGridKey bounds cellSize q).2))
          = SpatialGrid.getGridKey bounds cellSize p := by
        rw [Prod.ext_iff]
        constructor <;> (dsimp only; omega)
      rw [hkey]
      exact SpatialGrid.mem_insertAll_self bounds cellSize pts p hp _

/-- Witness for C9: the point (3,4) at distance exactly 5 from the origin
query is found with radius 5 and cell size 10. -/
theorem spatialgrid_no_false_negatives_witness :
    (0 : ℝ) < 10 ∧ (⟨3, 4⟩ : Vector2D) ∈ [(⟨3, 4⟩ : Vector2D)] ∧
    Vector2D.distance ⟨3, 4⟩ ⟨0, 0⟩ ≤ 5 ∧
    (⟨3, 4⟩ : Vector2D) ∈ SpatialGrid.getNearbyPoints ⟨0, 0, 800, 600⟩ 10
      (SpatialGrid.insertAll ⟨0, 0, 800, 600⟩ 10 SpatialGrid.emptyGrid
        [⟨3, 4⟩]) ⟨0, 0⟩ 5 := by
  have hdist : Vector2D.distance (⟨3, 4⟩ : Vector2D) ⟨0, 0⟩ = 5 := by
    unfold Vector2D.distance Vector2D.subtract
    rw [show ((⟨3, 4⟩ : Vector2D).x - (⟨0, 0⟩ : Vector2D).x) = 3 by norm_num,
      show ((⟨3, 4⟩ : Vector2D).y - (⟨0, 0⟩ : Vector2D).y) = 4 by norm_num,
      Vector2D.magnitude_mk,
      show ((3 : ℝ) * 3 + 4 * 4) = 5 ^ 2 by norm_num,
      Real.sqrt_sq (by norm_num)]
  refine ⟨by norm_num, by simp, le_of_eq hdist, ?_⟩
  exact spatialgrid_no_false_negatives ⟨0, 0, 800, 600⟩ 10 [⟨3, 4⟩] ⟨0, 0⟩ 5
    (by norm_num) ⟨3, 4⟩ (by simp) (le_of_eq hdist)

namespace FoodManager

theorem checkCollisionsList_none (point : Vector2D) (radius : ℝ) :
    ∀ l : List Food, (∀ f ∈ l, ¬ Food.checkCollision f point radius) →
      checkCollisionsList l point radius = (Option.none, l) := by
  intro l
  induction l with
  | nil => intro _; rfl
  | cons f rest ih =>
    intro h
    have hrest := ih (fun g hg => h g (List.mem_cons_of_mem f hg))
    unfold checkCollisionsList
    rw [if_neg (h f (List.mem_cons_self f rest))]
    rw [hrest]

theorem checkCollisionsList_first (point : Vector2D) (radius : ℝ) :
    ∀ (l : List Food) (i : ℕ) (f : Food),
      l[i]? = some f → Food.checkCollision f point radius →
      (∀ j, j < i → ∀ fj, l[j]? = some fj → ¬ Food.checkCollision fj point radius) →
      checkCollisionsList l point radius
        = (some (Food.consume f), l.set i (Food.consume f)) := by
  intro l
  induction l with
  | nil => intro i f hf; simp at hf
  | cons g rest ih =>
    intro i f hf hcol hfirst
    match i with
    | 0 =>
      have hgf : g = f := by simpa using hf
      subst hgf
      unfold checkCollisionsList
      rw [if_pos hcol]
      simp
    | Nat.succ j =>
      have hg : ¬ Food.checkCollision g point radius :=
        hfirst 0 (Nat.succ_pos j) g (by simp)
      have hrec := ih j f (by simpa using hf) hcol
        (fun k hk fk hfk => hfirst (k + 1) (by omega) fk (by simpa using hfk))
      unfold checkCollisionsList
      rw [if_neg hg, hrec]
      simp

theorem checkCollisions_none (fm : FoodManager) (point : Vector2D) (radius : ℝ)
    (h : ∀ f ∈ fm.foods, ¬ Food.checkCollision f point radius) :
    checkCollisions fm point radius = (fm, Option.none) := by
  unfold checkCollisions
  rw [checkCollisionsList_none point radius fm.foods h]

theorem checkCollisions_first (fm : FoodManager) (point : Vector2D) (radius : ℝ)
    (i : ℕ) (f : Food) (hf : fm.foods[i]? = some f)
    (hcol : Food.checkCollision f point radius)
    (hfirst : ∀ j, j < i → ∀ fj, fm.foods[j]? = some fj →
      ¬ Food.checkCollision fj point radius) :
    checkCollisions fm point radius
      = ({ fm with foods := fm.foods.set i (Food.consume f) },
          some (Food.consume f)) := by
  unfold checkCollisions
  rw [checkCollisionsList_first point radius fm.foods i f hf hcol hfirst]

end FoodManager

/-- Claim C10: `FoodManager.checkCollisions` consumes at most one food per
call: with no colliding food it returns null and leaves the manager
unchanged; otherwise it consumes exactly the first colliding food (setting
its `isActive` to false), returns it, and leaves every other food and the
rest of the manager's state unchanged. -/
theorem foodmanager_checkCollisions_consumes_first (fm : FoodManager)
    (point : Vector2D) (radius : ℝ) :
    ((∀ f ∈ fm.foods, ¬ Food.checkCollision f point radius) →
      FoodManager.checkCollisions fm point radius = (fm, Option.none)) ∧
    (∀ (i : ℕ) (f : Food), fm.foods[i]? = some f →
      Food.checkCollision f point radius →
      (∀ j, j < i → ∀ fj, fm.foods[j]? = some fj →
        ¬ Food.checkCollision fj point radius) →
      FoodManager.checkCollisions fm point radius
        = ({ fm with foods := fm.foods.set i (Food.consume f) },
            some (Food.consume f)) ∧
      (Food.consume f).isActive = false) := by
  refine ⟨FoodManager.checkCollisions_none fm point radius, ?_⟩
  intro i f hf hcol hfirst
  exact ⟨FoodManager.checkCollisions_first fm point radius i f hf hcol hfirst, rfl⟩

/-- The concrete food `foodA` collides with a worm head at its own
position. -/
theorem foodA_checkCollision : Food.checkCollision foodA ⟨100, 100⟩ 8 := by
  have hdist : Vector2D.distance (foodA.position) (⟨100, 100⟩ : Vector2D) = 0 := by
    rw [show foodA.position = (⟨100, 100⟩ : Vector2D) from rfl]
    unfold Vector2D.distance Vector2D.subtract
    rw [show ((100 : ℝ) - 100) = 0 by norm_num, Vector2D.magnitude_mk,
      show ((0 : ℝ) * 0 + 0 * 0) = 0 by norm_num, Real.sqrt_zero]
  refine ⟨rfl, ?_⟩
  rw [hdist]
  have heff : Food.getEffectiveRadius foodA = 6 * 1 := rfl
  rw [heff]
  norm_num

/-- Witness for C10: the concrete manager `fmA` whose single food collides
with the query point consumes exactly that food. -/
theorem foodmanager_checkCollisions_consumes_first_witness :
    fmA.foods[0]? = some foodA ∧
    Food.checkCollision foodA ⟨100, 100⟩ 8 ∧
    (FoodManager.checkCollisions fmA ⟨100, 100⟩ 8
        = ({ fmA with foods := fmA.foods.set 0 (Food.consume foodA) },
            some (Food.consume foodA)) ∧
      (Food.consume foodA).isActive = false) := by
  refine ⟨rfl, foodA_checkCollision, ?_⟩
  exact (foodmanager_checkCollisions_consumes_first fmA ⟨100, 100⟩ 8).2 0 foodA rfl
    foodA_checkCollision (fun j hj => absurd hj (by omega))

namespace Snake

theorem growLoop_length (tail direction : Vector2D) (sp : ℝ) :
    ∀ (n i : ℕ) (segs : List Vector2D),
      (growLoop tail direction sp i n segs).length = segs.length + n := by
  intro n
  induction n with
  | zero => intro i segs; rfl
  | succ n ih =>
    intro i segs
    show (growLoop tail direction sp (i + 1) n
      (segs ++ [growPos segs tail direction sp i])).length = segs.length + (n + 1)
    rw [ih (i + 1) (segs ++ [growPos segs tail direction sp i])]
    simp
    omega

theorem grow_length (s : Snake) (h : s.segments ≠ []) :
    (grow s).segments.length = s.segments.length + GROWTH_RATE := by
  unfold grow
  split
  · rename_i hnone
    exact absurd (List.getLast?_eq_none_iff.mp hnone) h
  · rename_i tail htail
    exact growLoop_length tail s.direction s.segmentSpacing GROWTH_RATE 0 s.segments

end Snake

namespace Game

theorem handleFoodConsumption_spec (g : Game) (f : Food)
    (hseg : g.snake.segments ≠ []) :
    (handleFoodConsumption g f).score = g.score + f.value ∧
    (handleFoodConsumption g f).snake.segments.length
      = g.snake.segments.length + GROWTH_RATE ∧
    (handleFoodConsumption g f).foodCount = g.foodCount + 1 ∧
    (handleFoodConsumption g f).foodManager = g.foodManager := by
  unfold handleFoodConsumption
  split
  · exact ⟨rfl, Snake.grow_length g.snake hseg, rfl, rfl⟩
  · exact ⟨rfl, Snake.grow_length g.snake hseg, rfl, rfl⟩

end Game

/-- Claim C2: with the game in the playing state and the worm's head
overlapping an active normal food of value 10 (the first food its collision
test passes), the collision-resolution step adds exactly 10 to the score,
grows the worm by exactly `GROWTH_RATE` segments, and deactivates exactly
that food. -/
theorem game_food_consumption (g : Game) (i : ℕ) (f : Food)
    (_hstate : g.gameState = GameState.playing)
    (hf : g.foodManager.foods[i]? = some f)
    (_htype : f.type = FoodType.normal)
    (hvalue : f.value = 10)
    (hcol : Food.checkCollision f (Snake.getHead g.snake) g.snake.radius)
    (hfirst : ∀ j, j < i → ∀ fj, g.foodManager.foods[j]? = some fj →
      ¬ Food.checkCollision fj (Snake.getHead g.snake) g.snake.radius)
    (hseg : g.snake.segments ≠ []) :
    (Game.checkCollisions g).score = g.score + 10 ∧
    (Game.checkCollisions g).snake.segments.length
      = g.snake.segments.length + GROWTH_RATE ∧
    (Game.checkCollisions g).foodManager.foods
      = g.foodManager.foods.set i (Food.consume f) ∧
    (Food.consume f).isActive = false := by
  have hfm := FoodManager.checkCollisions_first g.foodManager
    (Snake.getHead g.snake) g.snake.radius i f hf hcol hfirst
  have hspec := Game.handleFoodConsumption_spec
    { g with foodManager :=
        { g.foodManager with foods := g.foodManager.foods.set i (Food.consume f) } }
    (Food.consume f) hseg
  have hseg' : ({ g with foodManager :=
      { g.foodManager with foods := g.foodManager.foods.set i (Food.consume f) } }
      : Game).snake.segments ≠ [] := hseg
  have hif : ∀ gg : Game,
      (if (CollisionDetector.snakeSelfCollision COLLISION_TOLERANCE gg.snake).occurred
        then ({ gg with gameState := GameState.gameOver } : Game) else gg).score
          = gg.score ∧
      (if (CollisionDetector.snakeSelfCollision COLLISION_TOLERANCE gg.snake).occurred
        then ({ gg with gameState := GameState.gameOver } : Game) else gg).snake
          = gg.snake ∧
      (if (CollisionDetector.snakeSelfCollision COLLISION_TOLERANCE gg.snake).occurred
        then ({ gg with gameState := GameState.gameOver } : Game) else gg).foodManager
          = gg.foodManager := by
    intro gg
    split <;> exact ⟨rfl, rfl, rfl⟩
  unfold Game.checkCollisions
  rw [hfm]
  dsimp only
  refine ⟨?_, ?_, ?_, rfl⟩
  · rw [(hif _).1, (Game.handleFoodConsumption_spec _ _ hseg').1]
    show g.score + (Food.consume f).value = g.score + 10
    rw [show (Food.consume f).value = f.value from rfl, hvalue]
  · rw [(hif _).2.1, (Game.handleFoodConsumption_spec _ _ hseg').2.1]
  · rw [(hif _).2.2, (Game.handleFoodConsumption_spec _ _ hseg').2.2.2]

/-- Witness for C2: in the concrete game `gameA` (playing, head on the
active normal food `foodA`) the collision step adds 10 points, grows the
worm by `GROWTH_RATE`, and deactivates the food. -/
theorem game_food_consumption_witness :
    gameA.gameState = GameState.playing ∧
    Food.checkCollision foodA (Snake.getHead gameA.snake) gameA.snake.radius ∧
    ((Game.checkCollisions gameA).score = gameA.score + 10 ∧
      (Game.checkCollisions gameA).snake.segments.length
        = gameA.snake.segments.length + GROWTH_RATE ∧
      (Game.checkCollisions gameA).foodManager.foods
        = gameA.foodManager.foods.set 0 (Food.consume foodA) ∧
      (Food.consume foodA).isActive = false) :=
  ⟨rfl, foodA_checkCollision,
    game_food_consumption gameA 0 foodA rfl rfl rfl rfl foodA_checkCollision
      (fun j hj => absurd hj (by omega)) (by simp [gameA, wormA])⟩
